import Mathlib

/-!
Shallow embedding of the market-data aggregation core of the
MIdnight_Market dashboard (src/App.tsx, src/components/NewsFeed.tsx,
src/unnamed/part_000 = ChatBot, src/unnamed/part_001 = types).

JavaScript numbers that can be NaN are modelled as `Option ℚ`
(`none` = NaN); ordinary JSON numbers are modelled as `ℚ`.
Fields that may be absent (`undefined`) in a JSON payload are
modelled as `Option _`.
-/

set_option maxRecDepth 16000

/-- JsNum models a JavaScript number that may be NaN: `none` is NaN,
`some q` is the finite value `q`. -/
abbrev JsNum := Option ℚ

/-- jsNeg models JavaScript unary minus on a number: `-NaN = NaN`. -/
def jsNeg (x : JsNum) : JsNum := x.map (fun q => -q)

/-- jsSub models JavaScript subtraction: NaN propagates. -/
def jsSub (x y : JsNum) : JsNum :=
  match x, y with
  | some a, some b => some (a - b)
  | _, _ => none

/-- jsOrStr models the JavaScript expression `s || d` for a possibly
undefined string `s`: `undefined` and the empty string are falsy, any
other string is truthy. -/
def jsOrStr (s : Option String) (d : String) : String :=
  match s with
  | none => d
  | some t => if t = "" then d else t

/-- jsOrQ models the JavaScript expression `x || 0` for a possibly
undefined (or null) number `x`. -/
def jsOrQ (x : Option ℚ) : ℚ :=
  match x with
  | none => 0
  | some q => q

/-- skipWs drops leading JavaScript whitespace characters, as
`parseFloat` does before parsing. -/
def skipWs : List Char → List Char
  | [] => []
  | c :: cs => if c = ' ' ∨ c = '\t' ∨ c = '\n' ∨ c = '\r' then skipWs cs else c :: cs

/-- readDigits splits off the longest run of leading decimal digits. -/
def readDigits : List Char → List Char × List Char
  | [] => ([], [])
  | c :: cs =>
    if c.isDigit then
      let (ds, r) := readDigits cs
      (c :: ds, r)
    else ([], c :: cs)

/-- digitsVal reads a digit run as a natural number. -/
def digitsVal (ds : List Char) : ℕ :=
  ds.foldl (fun acc c => 10 * acc + (c.toNat - 48)) 0

/-- readSign consumes an optional leading sign, returning the sign as a
rational together with the remaining characters. -/
def readSign : List Char → ℚ × List Char
  | '-' :: r => (-1, r)
  | '+' :: r => (1, r)
  | r => (1, r)

/-- readExpSign consumes an optional sign of an exponent. -/
def readExpSign : List Char → ℤ × List Char
  | '-' :: r => (-1, r)
  | '+' :: r => (1, r)
  | r => (1, r)

/-- jsParseFloat models JavaScript `parseFloat` on decimal input: skip
leading whitespace, read an optional sign, an integer part, an optional
fractional part and an optional exponent, ignoring trailing garbage.
The result is `none` (NaN) when no digits can be read at the front.
(The special literal `Infinity` is outside the model.) -/
def jsParseFloat (s : String) : JsNum :=
  let l0 := skipWs s.toList
  let (sgn, l1) := readSign l0
  let (ip, l2) := readDigits l1
  let (fp, l3) :=
    match l2 with
    | '.' :: r => readDigits r
    | r => ([], r)
  if ip.isEmpty ∧ fp.isEmpty then none
  else
    let base : ℚ := (digitsVal ip : ℚ) + (digitsVal fp : ℚ) / (10 : ℚ) ^ fp.length
    let ex : ℤ :=
      match l3 with
      | 'e' :: r =>
        let (esgn, r1) := readExpSign r
        let (eds, _) := readDigits r1
        if eds.isEmpty then 0 else esgn * (digitsVal eds : ℤ)
      | 'E' :: r =>
        let (esgn, r1) := readExpSign r
        let (eds, _) := readDigits r1
        if eds.isEmpty then 0 else esgn * (digitsVal eds : ℤ)
      | _ => 0
    some (sgn * base * (10 : ℚ) ^ ex)

/-- BaseToken is the `baseToken` object of a DEX pair record. -/
structure BaseToken where
  address : String
  symbol : String
  name : String
deriving DecidableEq, Repr

/-- Pair is one DEX trading-pair record as consumed by `fetchMemecoins`
(src/App.tsx). The textual numeric fields `priceUsd`, `priceChange.h24`,
`fdv` and `volume.h24` are `Option String` (`none` = field absent, which
also covers an absent `priceChange`/`volume` object under optional
chaining); `liquidity.usd` is a JSON number, absent when the `liquidity`
object or its `usd` field is missing. -/
structure Pair where
  chainId : String
  baseToken : BaseToken
  priceUsd : Option String
  priceChangeH24 : Option String
  fdv : Option String
  volumeH24 : Option String
  liquidityUsd : Option ℚ
deriving DecidableEq, Repr

/-- Asset is the canonical asset model (src/unnamed/part_001). -/
structure Asset where
  id : String
  symbol : String
  name : String
  currentPrice : JsNum
  priceChange24h : JsNum
  marketCap : JsNum
  volume24h : JsNum
  sparklineData : List ℚ
  image : String
  rank : ℤ
  blockchain : Option String := none
  contractAddress : Option String := none
deriving DecidableEq, Repr

/-- mapPair maps one DEX pair record to an `Asset`, following the
`mappedAssets.push` block of `fetchMemecoins` (src/App.tsx lines
205-218): each textual numeric field goes through `parseFloat(x || '0')`. -/
def mapPair (p : Pair) : Asset :=
  { id := p.baseToken.address
    symbol := p.baseToken.symbol
    name := p.baseToken.name
    currentPrice := jsParseFloat (jsOrStr p.priceUsd "0")
    priceChange24h := jsParseFloat (jsOrStr p.priceChangeH24 "0")
    marketCap := jsParseFloat (jsOrStr p.fdv "0")
    volume24h := jsParseFloat (jsOrStr p.volumeH24 "0")
    sparklineData := []
    image := "https://dd.dexscreener.com/ds-data/tokens/" ++ p.chainId ++ "/"
      ++ p.baseToken.address ++ ".png"
    rank := 999
    blockchain := some p.chainId
    contractAddress := some p.baseToken.address }

/-- liqOr0 is the JavaScript expression `p.liquidity?.usd || 0` used by
the liquidity comparator. -/
def liqOr0 (p : Pair) : ℚ := jsOrQ p.liquidityUsd

/-- chainFilter models the chain-filtering step of `fetchMemecoins`:
keep all pairs when the selected blockchain is "all", otherwise keep
the pairs whose `chainId` equals the selected blockchain. -/
def chainFilter (bc : String) (pairs : List Pair) : List Pair :=
  if bc = "all" then pairs else pairs.filter (fun p => p.chainId = bc)

/-- leLiq orders DEX pairs by descending quoted USD liquidity; it is the
relation realised by the comparator
`(b.liquidity?.usd || 0) - (a.liquidity?.usd || 0)`. -/
def leLiq (p q : Pair) : Prop := liqOr0 q ≤ liqOr0 p

instance : DecidableRel leLiq := fun _ _ => inferInstanceAs (Decidable (_ ≤ _))

instance : IsTotal Pair leLiq := ⟨fun p q => le_total (liqOr0 q) (liqOr0 p)⟩

instance : IsTrans Pair leLiq := ⟨fun _ _ _ h1 h2 => le_trans h2 h1⟩

/-- sortPairs models `filteredPairs.sort((a, b) => (b.liquidity?.usd || 0)
- (a.liquidity?.usd || 0))`: a stable sort descending by liquidity. -/
def sortPairs (pairs : List Pair) : List Pair := List.insertionSort leLiq pairs

/-- dedupeFirst models the `seenTokens` walk of `fetchMemecoins`: scan
the list in order, keeping a pair only when its base-token address has
not been seen before. -/
def dedupeFirst (seen : List String) : List Pair → List Pair
  | [] => []
  | p :: rest =>
    if p.baseToken.address ∈ seen then dedupeFirst seen rest
    else p :: dedupeFirst (p.baseToken.address :: seen) rest

/-- reconcile is the whole pair-to-asset pipeline of `fetchMemecoins`:
chain filtering, descending stable sort by liquidity, first-occurrence
deduplication by base-token address, and mapping into canonical assets. -/
def reconcile (bc : String) (pairs : List Pair) : List Asset :=
  (dedupeFirst [] (sortPairs (chainFilter bc pairs))).map mapPair

/-- NewsItem is one news entry as cached by the News feed
(src/components/NewsFeed.tsx). -/
structure NewsItem where
  headline : String
  summary : String
  url : String
  timestamp : String
deriving DecidableEq, Repr

/-- CacheData is the persisted news-cache entry `{ items, expiry }`. -/
structure CacheData where
  items : List NewsItem
  expiry : ℤ
deriving DecidableEq, Repr

/-- Stored is the raw content of the persisted cache bucket: either a
blob that fails to deserialize, or a valid `CacheData`. -/
inductive Stored where
  | corrupt : Stored
  | valid : CacheData → Stored
deriving DecidableEq, Repr

/-- Store is the state of the cache bucket under the news cache key:
`none` when no entry is persisted. -/
abbrev Store := Option Stored

/-- CACHE_TTL is the news time-to-live constant, 15 minutes in
milliseconds (src/components/NewsFeed.tsx). -/
def CACHE_TTL : ℤ := 15 * 60 * 1000

/-- NewsResult is the observable outcome of one `fetchNews` call: the
cache bucket afterwards, the news items displayed (if any were set),
whether a network call was made, and the error / cached flags. -/
structure NewsResult where
  store : Store
  news : Option (List NewsItem)
  networkCalled : Bool
  error : Bool
  isCached : Bool
deriving DecidableEq, Repr

/-- doFetchNews is the fresh-fetch half of `fetchNews` (steps 2 and 3):
the network outcome is `none` on a transport/parse failure and
`some items` on a response that parsed into `items`; an empty item list
raises "Empty intel response", so only a non-empty list is a success,
which sets the news and replaces the cache entry wholesale. -/
def doFetchNews (now : ℤ) (store : Store) (net : Option (List NewsItem)) : NewsResult :=
  match net with
  | some items =>
    if items.isEmpty then
      { store := store, news := none, networkCalled := true, error := true, isCached := false }
    else
      { store := some (.valid ⟨items, now + CACHE_TTL⟩), news := some items,
        networkCalled := true, error := false, isCached := false }
  | none =>
    { store := store, news := none, networkCalled := true, error := true, isCached := false }

/-- fetchNews models `fetchNews(force)` of src/components/NewsFeed.tsx:
unless forced, a persisted entry is consulted first — a corrupt entry is
removed and the call falls through to a fresh fetch, a valid unexpired
entry is returned directly with no network call, and a valid expired
entry is left in place while the call falls through to a fresh fetch. -/
def fetchNews (force : Bool) (now : ℤ) (store : Store) (net : Option (List NewsItem)) :
    NewsResult :=
  if force then doFetchNews now store net
  else
    match store with
    | none => doFetchNews now store net
    | some .corrupt => doFetchNews now none net
    | some (.valid d) =>
      if now < d.expiry then
        { store := store, news := some d.items, networkCalled := false,
          error := false, isCached := true }
      else doFetchNews now store net

/-- startsWithL decides whether the second character list is a prefix of
the first. -/
def startsWithL : List Char → List Char → Bool
  | _, [] => true
  | [], _ :: _ => false
  | a :: as, b :: bs => a = b && startsWithL as bs

/-- hasSubL decides whether the second character list occurs as a
contiguous run inside the first; it models JavaScript
`String.prototype.includes`. -/
def hasSubL : List Char → List Char → Bool
  | [], pat => pat.isEmpty
  | l@(_ :: rest), pat => startsWithL l pat || hasSubL rest pat

/-- containsSub models `hay.includes(pat)` on strings. -/
def containsSub (hay pat : String) : Bool := hasSubL hay.toList pat.toList

/-- getSimulatedResponse is the deterministic keyword-driven local
responder of the ChatBot (src/unnamed/part_000): lowercase the input and
route on the first matching topic keyword. -/
def getSimulatedResponse (userInput : String) : String :=
  let i := userInput.toLower
  if containsSub i "bitcoin" || containsSub i "btc" then
    "Bitcoin is currently testing major psychological resistance levels. On-chain data suggests institutional wallets are in a \x27holding\x27 phase, while retail sentiment remains cautiously optimistic. Watch the 200-day moving average for trend confirmation."
  else if containsSub i "ethereum" || containsSub i "eth" then
    "Ethereum\x27s network activity has seen a slight uptick in L2 gas consumption. Deflationary pressures are mounting as burn rates exceed issuance. The current focus is on upcoming network upgrades aimed at scalability."
  else if containsSub i "memecoin" || containsSub i "meme" then
    "The memecoin sector is currently high-volatility with significant rotation observed into AI-themed assets. While liquidity is thin, social dominance for top-tier memes remains strong. High risk, high reward dynamics are dominant here."
  else if containsSub i "analysis" || containsSub i "market" then
    "Broad market structure remains in a consolidation phase. Dominance levels are shifting as capital rotates into specific sector narratives. Macro indicators point towards a period of volatility as traders await clarity on global fiscal policies."
  else
    "The terminal is operating in simulated intelligence mode. Current data streams indicate localized volatility and increasing accumulation in blue-chip assets. Interrogate specific tickers for deeper surveillance."

/-- degradedNote is the explicit degraded-mode marker the ChatBot
appends when the live call throws. -/
def degradedNote : String := " (Note: Live uplink failed, using simulated data)."

/-- LiveOutcome is the result of the external assistant capability call:
it either throws, or succeeds with an optional text (`response.text`). -/
inductive LiveOutcome where
  | failure : LiveOutcome
  | success : Option String → LiveOutcome
deriving DecidableEq, Repr

/-- sendMessageReply gives the reply text produced by `sendMessage`
(src/unnamed/part_000) for a chat input, as a function of whether the
capability credential is present and of the live call outcome: without
a credential the simulated responder answers; with one, a successful
call returns `response.text || "Protocol timeout. Signal lost."`, and a
throw falls back to the simulated responder plus the degraded marker. -/
def sendMessageReply (hasKey : Bool) (textToSend : String) (live : LiveOutcome) : String :=
  if hasKey then
    match live with
    | .success t => jsOrStr t "Protocol timeout. Signal lost."
    | .failure => getSimulatedResponse textToSend ++ degradedNote
  else getSimulatedResponse textToSend

/-- SortKey is the sort-key union of src/App.tsx. -/
inductive SortKey where
  | market_cap : SortKey
  | price_change : SortKey
  | volume : SortKey
  | name : SortKey
deriving DecidableEq, Repr

/-- SortOrder is the sort-order union of src/App.tsx. -/
inductive SortOrder where
  | desc : SortOrder
  | asc : SortOrder
deriving DecidableEq, Repr

/-- toggleOrder is `sortOrder === 'desc' ? 'asc' : 'desc'`. -/
def toggleOrder : SortOrder → SortOrder
  | .desc => .asc
  | .asc => .desc

/-- clickSort models the sort-button click handler of src/App.tsx lines
342-345: clicking the selected key toggles the order, clicking another
key selects it and resets the order to descending. -/
def clickSort (cur : SortKey × SortOrder) (k : SortKey) : SortKey × SortOrder :=
  if cur.1 = k then (cur.1, toggleOrder cur.2) else (k, SortOrder.desc)

/-- cmpChars is lexicographic three-way comparison of character lists by
code point, returning -1, 0 or 1. -/
def cmpChars : List Char → List Char → ℤ
  | [], [] => 0
  | [], _ :: _ => -1
  | _ :: _, [] => 1
  | a :: as, b :: bs => if a < b then -1 else if b < a then 1 else cmpChars as bs

/-- strCmp models the external `String.prototype.localeCompare` builtin
used for the `name` sort key; the locale-aware ordering is modelled as
code-point lexicographic three-way comparison. -/
def strCmp (a b : String) : ℤ := cmpChars a.toList b.toList

/-- compareAssets is the comparator of `processedAssets` (src/App.tsx
lines 251-258): a key-specific descending comparison, sign-inverted
when the order is ascending. -/
def compareAssets (key : SortKey) (ord : SortOrder) (a b : Asset) : JsNum :=
  let comp : JsNum :=
    match key with
    | .market_cap => jsSub b.marketCap a.marketCap
    | .price_change => jsSub b.priceChange24h a.priceChange24h
    | .volume => jsSub b.volume24h a.volume24h
    | .name => some ((strCmp a.name b.name : ℤ) : ℚ)
  match ord with
  | .desc => comp
  | .asc => jsNeg comp

/-- MarketMode is the market-mode union of src/unnamed/part_001. -/
inductive MarketMode where
  | bluechips : MarketMode
  | memecoins : MarketMode
deriving DecidableEq, Repr

/-- QueryState groups the query-coordinator state fields of the App
component. -/
structure QueryState where
  marketMode : MarketMode
  blockchain : String
  searchQuery : String
  sortKey : SortKey
  sortOrder : SortOrder
deriving DecidableEq, Repr

/-- selectMode models the mode-button click handler of src/App.tsx line
290: `setMarketMode(mode); setBlockchain('all'); setSearchQuery('')`. -/
def selectMode (s : QueryState) (m : MarketMode) : QueryState :=
  { s with marketMode := m, blockchain := "all", searchQuery := "" }

/-- Coin is one ranked-asset record of the bluechip feed as consumed by
`fetchBluechips`; `price_change_percentage_24h` can be null upstream and
goes through `|| 0`. -/
structure Coin where
  id : String
  symbol : String
  name : String
  current_price : ℚ
  price_change_percentage_24h : Option ℚ
  market_cap : ℚ
  total_volume : ℚ
  sparkline_in_7d : List ℚ
  image : String
  market_cap_rank : ℤ
deriving DecidableEq, Repr

/-- mapCoin maps one ranked-asset record to an `Asset` (src/App.tsx
lines 137-148). -/
def mapCoin (c : Coin) : Asset :=
  { id := c.id
    symbol := c.symbol.toUpper
    name := c.name
    currentPrice := some c.current_price
    priceChange24h := some (jsOrQ c.price_change_percentage_24h)
    marketCap := some c.market_cap
    volume24h := some c.total_volume
    sparklineData := c.sparkline_in_7d
    image := c.image
    rank := c.market_cap_rank }

/-- MarketState is the fetch-related component state of the App: the
asset list, the loading flag, the scoped error message, and the last
successful update time. -/
structure MarketState where
  assets : List Asset
  loading : Bool
  error : Option String
  lastUpdated : Option ℤ
deriving DecidableEq, Repr

/-- fetchBluechips models `fetchBluechips` (src/App.tsx lines 128-155)
as a state transformer: the network outcome is `none` on a non-ok
status or transport error, and `some coins` on success. On failure only
the error message and loading flag change. -/
def fetchBluechips (st : MarketState) (now : ℤ) (net : Option (List Coin)) : MarketState :=
  let st1 : MarketState := { st with loading := true, error := none }
  match net with
  | none => { st1 with error := some "Liquidity feed dropped.", loading := false }
  | some coins =>
    { st1 with assets := coins.map mapCoin, lastUpdated := some now, loading := false }

/-- dexFail is the catch branch of `fetchMemecoins`: set the scoped
error message, leave the assets untouched, clear loading. -/
def dexFail (st1 : MarketState) : MarketState :=
  { st1 with error := some "Dex Uplink Interrupted", loading := false }

/-- fetchMemecoinsSearch models the Search-mode path of `fetchMemecoins`
(non-empty query): one call to the DEX search endpoint, whose outcome is
`none` on failure and `some pairs` on success (`data.pairs || []`). -/
def fetchMemecoinsSearch (st : MarketState) (now : ℤ) (bc : String)
    (net : Option (List Pair)) : MarketState :=
  let st1 : MarketState := { st with loading := true, error := none }
  match net with
  | none => dexFail st1
  | some pairs =>
    { st1 with assets := reconcile bc pairs, lastUpdated := some now, loading := false }

/-- fetchMemecoinsDiscovery models the Discovery-mode path of
`fetchMemecoins` (empty query): fetch up to 50 trending token profiles,
join their addresses with commas, return an empty asset set when the
joined string is empty, otherwise look up the pairs in a second call.
Either call's outcome is `none` on failure. -/
def fetchMemecoinsDiscovery (st : MarketState) (now : ℤ) (bc : String)
    (net1 : Option (List String)) (net2 : Option (List Pair)) : MarketState :=
  let st1 : MarketState := { st with loading := true, error := none }
  match net1 with
  | none => dexFail st1
  | some profs =>
    let addresses := String.intercalate "," (profs.take 50)
    if addresses = "" then { st1 with assets := [], loading := false }
    else
      match net2 with
      | none => dexFail st1
      | some pairs =>
        { st1 with assets := reconcile bc pairs, lastUpdated := some now, loading := false }

/-- fetchMemecoins dispatches on the query exactly as the endpoint
selection of src/App.tsx lines 161-166 does: a non-blank query uses
Search mode, otherwise Discovery mode. -/
def fetchMemecoins (st : MarketState) (now : ℤ) (bc : String) (query : String)
    (netSearch : Option (List Pair)) (net1 : Option (List String))
    (net2 : Option (List Pair)) : MarketState :=
  if query.trim.length > 0 then fetchMemecoinsSearch st now bc netSearch
  else fetchMemecoinsDiscovery st now bc net1 net2

/-- debounceFires models the memecoin-search debounce effect of
src/App.tsx lines 232-243 over a time-ordered list of search-text
change events `(time, text)` in Memecoin mode with non-empty text: each
change clears the previously scheduled timer and schedules
`fetchMemecoins(text)` 600ms later, so a scheduled fetch fires exactly
when no further change happens before its fire time. -/
def debounceFires : List (ℤ × String) → List (ℤ × String)
  | [] => []
  | [(t, q)] => [(t + 600, q)]
  | (t, q) :: (t', q') :: rest =>
    (if t + 600 ≤ t' then [(t + 600, q)] else []) ++ debounceFires ((t', q') :: rest)

theorem mem_of_mem_dedupeFirst {seen : List String} {l : List Pair} {p : Pair}
    (h : p ∈ dedupeFirst seen l) : p ∈ l := by
  induction l generalizing seen with
  | nil => simp [dedupeFirst] at h
  | cons x rest ih =>
    simp only [dedupeFirst] at h
    by_cases hx : x.baseToken.address ∈ seen
    · rw [if_pos hx] at h
      exact List.mem_cons_of_mem _ (ih h)
    · rw [if_neg hx] at h
      rcases List.mem_cons.mp h with rfl | h2
      · exact List.mem_cons_self _ _
      · exact List.mem_cons_of_mem _ (ih h2)

theorem addr_not_seen_of_mem_dedupeFirst {seen : List String} {l : List Pair} {p : Pair}
    (h : p ∈ dedupeFirst seen l) : p.baseToken.address ∉ seen := by
  induction l generalizing seen with
  | nil => simp [dedupeFirst] at h
  | cons x rest ih =>
    simp only [dedupeFirst] at h
    by_cases hx : x.baseToken.address ∈ seen
    · rw [if_pos hx] at h
      exact ih h
    · rw [if_neg hx] at h
      rcases List.mem_cons.mp h with rfl | h2
      · exact hx
      · intro hmem
        exact ih h2 (List.mem_cons_of_mem _ hmem)

theorem dedupeFirst_map_addr_nodup (seen : List String) (l : List Pair) :
    ((dedupeFirst seen l).map (fun p => p.baseToken.address)).Nodup := by
  induction l generalizing seen with
  | nil => simp [dedupeFirst]
  | cons x rest ih =>
    simp only [dedupeFirst]
    by_cases hx : x.baseToken.address ∈ seen
    · rw [if_pos hx]
      exact ih seen
    · rw [if_neg hx]
      simp only [List.map_cons, List.nodup_cons]
      refine ⟨?_, ih _⟩
      intro hmem
      rcases List.mem_map.mp hmem with ⟨q, hq, hqe⟩
      exact addr_not_seen_of_mem_dedupeFirst hq (by rw [hqe]; exact List.mem_cons_self _ _)

theorem dedupeFirst_first_is_max {R : Pair → Pair → Prop} :
    ∀ {l : List Pair} {seen : List String} {p : Pair}, l.Pairwise R →
    p ∈ dedupeFirst seen l → ∀ q ∈ l,
    q.baseToken.address = p.baseToken.address → q = p ∨ R p q := by
  intro l
  induction l with
  | nil =>
    intro seen p _ hp
    simp [dedupeFirst] at hp
  | cons x rest ih =>
    intro seen p hpw hp q hq haddr
    rw [List.pairwise_cons] at hpw
    obtain ⟨hx_all, hpw_rest⟩ := hpw
    simp only [dedupeFirst] at hp
    by_cases hx : x.baseToken.address ∈ seen
    · rw [if_pos hx] at hp
      rcases List.mem_cons.mp hq with rfl | hq2
      · exact absurd (haddr ▸ hx) (addr_not_seen_of_mem_dedupeFirst hp)
      · exact ih hpw_rest hp q hq2 haddr
    · rw [if_neg hx] at hp
      rcases List.mem_cons.mp hp with rfl | hp2
      · rcases List.mem_cons.mp hq with rfl | hq2
        · exact Or.inl rfl
        · exact Or.inr (hx_all q hq2)
      · rcases List.mem_cons.mp hq with rfl | hq2
        · exact absurd (by rw [← haddr]; exact List.mem_cons_self _ _)
            (addr_not_seen_of_mem_dedupeFirst hp2)
        · exact ih hpw_rest hp2 q hq2 haddr

/-- C1: for every DEX pair list, after chain filtering the reconciled
asset list contains at most one Asset per base-token contract address,
and each Asset is mapped from a pair whose quoted USD liquidity is
maximal among the filtered pairs sharing its address. -/
theorem reconcile_dedup_max_liquidity (bc : String) (pairs : List Pair) :
    ((reconcile bc pairs).map Asset.id).Nodup ∧
    ∀ a ∈ reconcile bc pairs, ∃ p ∈ chainFilter bc pairs, a = mapPair p ∧
      ∀ q ∈ chainFilter bc pairs,
        q.baseToken.address = p.baseToken.address → liqOr0 q ≤ liqOr0 p := by
  constructor
  · simp only [reconcile, List.map_map]
    exact dedupeFirst_map_addr_nodup [] (sortPairs (chainFilter bc pairs))
  · intro a ha
    simp only [reconcile, List.mem_map] at ha
    obtain ⟨p, hp, rfl⟩ := ha
    refine ⟨p, ?_, rfl, ?_⟩
    · have hmem := mem_of_mem_dedupeFirst hp
      simp only [sortPairs] at hmem
      exact (List.perm_insertionSort leLiq _).mem_iff.mp hmem
    · intro q hq haddr
      have hq' : q ∈ sortPairs (chainFilter bc pairs) := by
        simp only [sortPairs]
        exact (List.perm_insertionSort leLiq _).mem_iff.mpr hq
      have hs : (sortPairs (chainFilter bc pairs)).Pairwise leLiq :=
        List.sorted_insertionSort leLiq (chainFilter bc pairs)
      rcases dedupeFirst_first_is_max hs hp q hq' haddr with rfl | hr
      · exact le_refl _
      · exact hr

/-- pairLowLiq is the spec scenario pair for token 0xAB with quoted USD
liquidity 100. -/
def pairLowLiq : Pair :=
  { chainId := "solana"
    baseToken := { address := "0xAB", symbol := "AB", name := "Alpha Beta" }
    priceUsd := some "1.5"
    priceChangeH24 := some "2"
    fdv := some "1000"
    volumeH24 := some "40"
    liquidityUsd := some 100 }

/-- pairHighLiq is the spec scenario pair for token 0xAB with quoted USD
liquidity 500. -/
def pairHighLiq : Pair :=
  { chainId := "solana"
    baseToken := { address := "0xAB", symbol := "AB", name := "Alpha Beta" }
    priceUsd := some "1.7"
    priceChangeH24 := some "3"
    fdv := some "1100"
    volumeH24 := some "70"
    liquidityUsd := some 500 }

/-- Witness for C1 at the spec scenario: chain "solana", two pairs for
token 0xAB with liquidity 100 and 500; the asset kept for 0xAB comes
from a maximal-liquidity pair. -/
theorem reconcile_dedup_max_liquidity_witness :
    ∃ p ∈ chainFilter "solana" [pairLowLiq, pairHighLiq], mapPair pairHighLiq = mapPair p ∧
      ∀ q ∈ chainFilter "solana" [pairLowLiq, pairHighLiq],
        q.baseToken.address = p.baseToken.address → liqOr0 q ≤ liqOr0 p :=
  (reconcile_dedup_max_liquidity "solana" [pairLowLiq, pairHighLiq]).2
    (mapPair pairHighLiq)
    (by
      simp only [reconcile]
      exact List.mem_map_of_mem mapPair (by decide))

theorem jsParseFloat_zero : jsParseFloat "0" = some 0 := by
  have h1 : jsParseFloat "0"
      = some ((1 : ℚ) * (((0:ℕ) : ℚ) + ((0:ℕ) : ℚ) / (10 : ℚ) ^ (0:ℕ)) * (10 : ℚ) ^ (0 : ℤ)) :=
    rfl
  rw [h1]
  norm_num

/-- pairBadPrice is a DEX pair whose priceUsd text is present but not
parseable as a number. -/
def pairBadPrice : Pair :=
  { chainId := "solana"
    baseToken := { address := "0xCD", symbol := "CD", name := "Gamma Delta" }
    priceUsd := some "xyz"
    priceChangeH24 := none
    fdv := none
    volumeH24 := none
    liquidityUsd := none }

/-- C2 counterexample: a numeric field arriving as a non-empty but
unparseable string does not default to zero — `parseFloat` yields NaN
(`none` in the model), so the mapped price is NaN, not 0. -/
theorem mapPair_unparseable_is_nan :
    (mapPair pairBadPrice).currentPrice = none ∧
    (mapPair pairBadPrice).currentPrice ≠ some 0 := by decide

/-- C2 (amended): a numeric field that is missing (absent, or an empty
string) defaults to zero, and the record is always included in the
result regardless of its numeric fields; a present but unparseable
field instead maps to NaN. -/
theorem mapPair_missing_defaults_zero (p : Pair) :
    (p.priceUsd = none ∨ p.priceUsd = some "" → (mapPair p).currentPrice = some 0) ∧
    (p.priceChangeH24 = none ∨ p.priceChangeH24 = some "" →
      (mapPair p).priceChange24h = some 0) ∧
    (p.fdv = none ∨ p.fdv = some "" → (mapPair p).marketCap = some 0) ∧
    (p.volumeH24 = none ∨ p.volumeH24 = some "" → (mapPair p).volume24h = some 0) ∧
    reconcile "all" [p] = [mapPair p] := by
  refine ⟨?_, ?_, ?_, ?_, ?_⟩
  · rintro (h | h) <;> simp [mapPair, jsOrStr, h, jsParseFloat_zero]
  · rintro (h | h) <;> simp [mapPair, jsOrStr, h, jsParseFloat_zero]
  · rintro (h | h) <;> simp [mapPair, jsOrStr, h, jsParseFloat_zero]
  · rintro (h | h) <;> simp [mapPair, jsOrStr, h, jsParseFloat_zero]
  · simp [reconcile, chainFilter, sortPairs, List.insertionSort, dedupeFirst]

/-- pairAllMissing is a DEX pair record with every optional numeric
field absent. -/
def pairAllMissing : Pair :=
  { chainId := "solana"
    baseToken := { address := "0xEF", symbol := "EF", name := "Epsilon" }
    priceUsd := none
    priceChangeH24 := none
    fdv := none
    volumeH24 := none
    liquidityUsd := none }

/-- Witness for the amended C2 at a pair with all numeric fields
absent. -/
theorem mapPair_missing_defaults_zero_witness :
    (mapPair pairAllMissing).currentPrice = some 0 ∧
    (mapPair pairAllMissing).priceChange24h = some 0 ∧
    (mapPair pairAllMissing).marketCap = some 0 ∧
    (mapPair pairAllMissing).volume24h = some 0 :=
  ⟨(mapPair_missing_defaults_zero pairAllMissing).1 (Or.inl rfl),
   (mapPair_missing_defaults_zero pairAllMissing).2.1 (Or.inl rfl),
   (mapPair_missing_defaults_zero pairAllMissing).2.2.1 (Or.inl rfl),
   (mapPair_missing_defaults_zero pairAllMissing).2.2.2.1 (Or.inl rfl)⟩

/-- newsItem0 is a concrete news item used for concrete cache states. -/
def newsItem0 : NewsItem :=
  { headline := "Market Intel", summary := "Liquidity rising", url := "#", timestamp := "09:00" }

/-- C3: after any `fetchNews` call that reached the network with a
response parsing to a non-empty item list, the cache holds exactly those
items with expiry `now0 + CACHE_TTL`, and every non-forced read before
that expiry returns exactly the stored items with no network call. -/
theorem newsCache_roundTrip (f : Bool) (now0 : ℤ) (s0 : Store) (items : List NewsItem)
    (net2 : Option (List NewsItem)) (now : ℤ)
    (hne : items ≠ [])
    (hwrote : (fetchNews f now0 s0 (some items)).networkCalled = true)
    (hfresh : now < now0 + CACHE_TTL) :
    (fetchNews f now0 s0 (some items)).store = some (.valid ⟨items, now0 + CACHE_TTL⟩) ∧
    (fetchNews false now (fetchNews f now0 s0 (some items)).store net2).news = some items ∧
    (fetchNews false now (fetchNews f now0 s0 (some items)).store net2).networkCalled = false := by
  have hni : items.isEmpty = false := by
    cases items with
    | nil => exact absurd rfl hne
    | cons a l => rfl
  have hw : (fetchNews f now0 s0 (some items)).store
      = some (.valid ⟨items, now0 + CACHE_TTL⟩) := by
    cases f with
    | true => simp [fetchNews, doFetchNews, hni]
    | false =>
      match s0 with
      | none => simp [fetchNews, doFetchNews, hni]
      | some .corrupt => simp [fetchNews, doFetchNews, hni]
      | some (.valid d) =>
        by_cases hd : now0 < d.expiry
        · exact absurd hwrote (by simp [fetchNews, hd])
        · simp [fetchNews, doFetchNews, hd, hni]
  refine ⟨hw, ?_, ?_⟩ <;> rw [hw] <;> simp [fetchNews, hfresh]

/-- Witness for C3: a forced write of one item at time 0 into an empty
store, read back at time 5. -/
theorem newsCache_roundTrip_witness :
    (fetchNews true 0 none (some [newsItem0])).store
      = some (.valid ⟨[newsItem0], 0 + CACHE_TTL⟩) ∧
    (fetchNews false 5 (fetchNews true 0 none (some [newsItem0])).store none).news
      = some [newsItem0] ∧
    (fetchNews false 5 (fetchNews true 0 none (some [newsItem0])).store none).networkCalled
      = false :=
  newsCache_roundTrip true 0 none [newsItem0] none 5 (by decide) (by decide) (by decide)

/-- C4 counterexample: a non-forced read at time 10 of a valid entry
that expired at time 5, followed by a failing fetch, leaves the expired
entry in the store — it is not deleted during the read. The read did
proceed to the network, yet the store still holds the old entry. -/
theorem newsCache_expired_not_deleted :
    (fetchNews false 10 (some (.valid ⟨[newsItem0], 5⟩)) none).store
      = some (.valid ⟨[newsItem0], 5⟩) ∧
    (fetchNews false 10 (some (.valid ⟨[newsItem0], 5⟩)) none).networkCalled = true ∧
    (fetchNews false 10 (some (.valid ⟨[newsItem0], 5⟩)) none).store ≠ none := by decide

/-- C4 (amended): a read that finds the entry corrupt deletes it
immediately (even when the subsequent fetch fails, the entry is gone)
and proceeds as a miss triggering a fresh fetch; a read that finds the
entry expired also proceeds as a miss triggering a fresh fetch, but the
entry is left in place and only replaced by a later successful write. -/
theorem newsCache_corrupt_deleted_expired_kept (now : ℤ) (net : Option (List NewsItem))
    (d : CacheData) (hfail : net = none ∨ net = some [])
    (hexp : d.expiry ≤ now) :
    (fetchNews false now (some .corrupt) net).networkCalled = true ∧
    (fetchNews false now (some .corrupt) net).store = none ∧
    (fetchNews false now (some (.valid d)) net).networkCalled = true ∧
    (fetchNews false now (some (.valid d)) net).store = some (.valid d) := by
  have hd : ¬ now < d.expiry := not_lt.mpr hexp
  rcases hfail with rfl | rfl <;> simp [fetchNews, doFetchNews, hd]

/-- Witness for the amended C4 at time 10, an entry expired at time 5,
and a failing network. -/
theorem newsCache_corrupt_deleted_expired_kept_witness :
    (fetchNews false 10 (some .corrupt) none).networkCalled = true ∧
    (fetchNews false 10 (some .corrupt) none).store = none ∧
    (fetchNews false 10 (some (.valid ⟨[newsItem0], 5⟩)) none).networkCalled = true ∧
    (fetchNews false 10 (some (.valid ⟨[newsItem0], 5⟩)) none).store
      = some (.valid ⟨[newsItem0], 5⟩) :=
  newsCache_corrupt_deleted_expired_kept 10 none ⟨[newsItem0], 5⟩ (Or.inl rfl) (by decide)

/-- C5: a forced refresh always reaches the network, never reports the
cached flag, produces news and error results independent of whatever is
in the store, and on success replaces the full cache entry with the new
items and expiry `now + CACHE_TTL`. -/
theorem newsForce_bypasses_cache (now : ℤ) (s s' : Store) (net : Option (List NewsItem)) :
    (fetchNews true now s net).networkCalled = true ∧
    (fetchNews true now s net).isCached = false ∧
    (fetchNews true now s net).news = (fetchNews true now s' net).news ∧
    (fetchNews true now s net).error = (fetchNews true now s' net).error ∧
    ∀ items, net = some items → items ≠ [] →
      (fetchNews true now s net).store = some (.valid ⟨items, now + CACHE_TTL⟩) ∧
      (fetchNews true now s net).news = some items := by
  cases net with
  | none => simp [fetchNews, doFetchNews]
  | some items =>
    cases items with
    | nil => simp [fetchNews, doFetchNews]
    | cons a l =>
      refine ⟨rfl, rfl, rfl, rfl, ?_⟩
      intro items' heq hne
      obtain rfl : a :: l = items' := by injection heq
      exact ⟨rfl, rfl⟩

/-- Witness for C5: forcing a refresh over a corrupt store at time 0
with one fetched item replaces the entry and displays the item. -/
theorem newsForce_bypasses_cache_witness :
    (fetchNews true 0 (some .corrupt) (some [newsItem0])).store
      = some (.valid ⟨[newsItem0], 0 + CACHE_TTL⟩) ∧
    (fetchNews true 0 (some .corrupt) (some [newsItem0])).news = some [newsItem0] :=
  (newsForce_bypasses_cache 0 (some .corrupt) none (some [newsItem0])).2.2.2.2
    [newsItem0] rfl (by decide)

/-- C6: when every search-text change arrives less than 600ms after the
previous one, exactly one fetch fires, 600ms after the last change,
carrying the last search text. -/
theorem debounce_single_fire :
    ∀ (evts : List (ℤ × String)) (h : evts ≠ []),
    evts.Chain' (fun a b => a.1 ≤ b.1 ∧ b.1 - a.1 < 600) →
    debounceFires evts = [((evts.getLast h).1 + 600, (evts.getLast h).2)] := by
  intro evts
  induction evts with
  | nil => intro h _; exact absurd rfl h
  | cons e rest ih =>
    intro h hgap
    obtain ⟨t, q⟩ := e
    cases rest with
    | nil => simp [debounceFires]
    | cons e' rest' =>
      obtain ⟨t', q'⟩ := e'
      rw [List.chain'_cons] at hgap
      obtain ⟨⟨hle, hlt⟩, hgap'⟩ := hgap
      have hcancel : ¬ ((t : ℤ) + 600 ≤ t') := by omega
      have hne' : ((t', q') :: rest') ≠ ([] : List (ℤ × String)) := by simp
      rw [show debounceFires ((t, q) :: (t', q') :: rest')
            = (if t + 600 ≤ t' then [(t + 600, q)] else [])
              ++ debounceFires ((t', q') :: rest') from rfl]
      rw [if_neg hcancel, List.nil_append, ih hne' hgap']
      rw [List.getLast_cons hne']

/-- searchEvents is the spec debounce scenario: a search-text change
every 100ms for 2 seconds. -/
def searchEvents : List (ℤ × String) :=
  [(0, "p"), (100, "pe"), (200, "pep"), (300, "pepe"), (400, "pepec"),
   (500, "pepeco"), (600, "pepecoi"), (700, "pepecoin"), (800, "pepecoin "),
   (900, "pepecoin m"), (1000, "pepecoin mo"), (1100, "pepecoin moo"),
   (1200, "pepecoin moon"), (1300, "pepecoin moons"), (1400, "pepecoin moonsh"),
   (1500, "pepecoin moonsho"), (1600, "pepecoin moonshot"), (1700, "pepecoin moonshot "),
   (1800, "pepecoin moonshot x"), (1900, "pepecoin moonshot xy")]

/-- Witness for C6 at the spec scenario: twenty changes 100ms apart
produce exactly one fetch, at 1900 + 600 = 2500ms, with the last text. -/
theorem debounce_single_fire_witness :
    debounceFires searchEvents = [(2500, "pepecoin moonshot xy")] :=
  (debounce_single_fire searchEvents (by decide)
    (by simp only [searchEvents, List.chain'_cons, List.chain'_singleton, and_true]; decide)).trans
    (by decide)

theorem startsWithL_refl : ∀ l : List Char, startsWithL l l = true := by
  intro l
  induction l with
  | nil => rfl
  | cons a as ih => simp [startsWithL, ih]

theorem hasSubL_append_self : ∀ (x pat : List Char), hasSubL (x ++ pat) pat = true := by
  intro x pat
  induction x with
  | nil =>
    cases pat with
    | nil => rfl
    | cons b bs => simp [hasSubL, startsWithL_refl]
  | cons a as ih => simp [hasSubL, ih]

/-- C7: with the capability credential absent, every chat reply is the
deterministic keyword-driven responder's text and contains no degraded
marker; with the credential present and a throwing live call, the reply
is the same responder's text for the same input with the degraded
marker appended (hence containing it). -/
theorem chat_fallback_deterministic (text : String) (live : LiveOutcome) :
    sendMessageReply false text live = getSimulatedResponse text ∧
    hasSubL (sendMessageReply false text live).toList degradedNote.toList = false ∧
    sendMessageReply true text .failure = getSimulatedResponse text ++ degradedNote ∧
    hasSubL (sendMessageReply true text .failure).toList degradedNote.toList = true := by
  refine ⟨rfl, ?_, rfl, ?_⟩
  · show hasSubL (getSimulatedResponse text).toList degradedNote.toList = false
    unfold getSimulatedResponse
    dsimp only
    split
    · decide
    · split
      · decide
      · split
        · decide
        · split
          · decide
          · decide
  · show hasSubL (getSimulatedResponse text ++ degradedNote).toList degradedNote.toList = true
    have hap : (getSimulatedResponse text ++ degradedNote).toList
        = (getSimulatedResponse text).toList ++ degradedNote.toList := by
      simp [String.toList]
    rw [hap]
    exact hasSubL_append_self _ _

/-- asset0 is a concrete canonical asset. -/
def asset0 : Asset :=
  { id := "bitcoin", symbol := "BTC", name := "Bitcoin", currentPrice := some 1,
    priceChange24h := some 2, marketCap := some 3, volume24h := some 4,
    sparklineData := [], image := "", rank := 1 }

/-- asset1 is a second concrete canonical asset. -/
def asset1 : Asset :=
  { id := "ethereum", symbol := "ETH", name := "Ethereum", currentPrice := some 5,
    priceChange24h := some 6, marketCap := some 7, volume24h := some 8,
    sparklineData := [], image := "", rank := 2 }

/-- C8: clicking the currently selected sort key toggles the order
without changing the key, clicking a different key selects it and
resets the order to descending, and for every key the ascending
comparator is the uniform sign inversion of the descending one. -/
theorem sortClick_toggle_reset_invert (k k' : SortKey) (o : SortOrder) (a b : Asset)
    (hne : k' ≠ k) :
    clickSort (k, o) k = (k, toggleOrder o) ∧
    clickSort (k, o) k' = (k', SortOrder.desc) ∧
    compareAssets k SortOrder.asc a b = jsNeg (compareAssets k SortOrder.desc a b) := by
  refine ⟨?_, ?_, rfl⟩
  · simp [clickSort]
  · simp [clickSort, Ne.symm hne]

/-- Witness for C8 at keys market_cap and volume on concrete assets. -/
theorem sortClick_toggle_reset_invert_witness :
    clickSort (SortKey.market_cap, SortOrder.desc) SortKey.market_cap
      = (SortKey.market_cap, SortOrder.asc) ∧
    clickSort (SortKey.market_cap, SortOrder.desc) SortKey.volume
      = (SortKey.volume, SortOrder.desc) ∧
    compareAssets SortKey.market_cap SortOrder.asc asset0 asset1
      = jsNeg (compareAssets SortKey.market_cap SortOrder.desc asset0 asset1) :=
  sortClick_toggle_reset_invert SortKey.market_cap SortKey.volume SortOrder.desc
    asset0 asset1 (by decide)

/-- C9: selecting any market mode sets that mode, resets the chain
filter to "all" and clears the search text, leaving the sort state
untouched. -/
theorem selectMode_resets_filters (s : QueryState) (m : MarketMode) :
    (selectMode s m).marketMode = m ∧ (selectMode s m).blockchain = "all" ∧
    (selectMode s m).searchQuery = "" ∧
    (selectMode s m).sortKey = s.sortKey ∧ (selectMode s m).sortOrder = s.sortOrder :=
  ⟨rfl, rfl, rfl, rfl, rfl⟩

/-- C10: every failure path of the Bluechip and Memecoin fetchers — a
failed ranked-asset call, a failed DEX search call, a failed discovery
call, or a failed second-phase pair lookup — leaves the held asset list
and the last-update time unchanged, setting only the scoped error
message and clearing the loading flag. -/
theorem fetch_failure_keeps_assets (st : MarketState) (now : ℤ) (bc : String)
    (net2 : Option (List Pair)) (profs : List String)
    (hne : String.intercalate "," (profs.take 50) ≠ "") :
    ((fetchBluechips st now none).assets = st.assets ∧
      (fetchBluechips st now none).error = some "Liquidity feed dropped." ∧
      (fetchBluechips st now none).loading = false ∧
      (fetchBluechips st now none).lastUpdated = st.lastUpdated) ∧
    ((fetchMemecoinsSearch st now bc none).assets = st.assets ∧
      (fetchMemecoinsSearch st now bc none).error = some "Dex Uplink Interrupted" ∧
      (fetchMemecoinsSearch st now bc none).loading = false ∧
      (fetchMemecoinsSearch st now bc none).lastUpdated = st.lastUpdated) ∧
    ((fetchMemecoinsDiscovery st now bc none net2).assets = st.assets ∧
      (fetchMemecoinsDiscovery st now bc none net2).error = some "Dex Uplink Interrupted" ∧
      (fetchMemecoinsDiscovery st now bc none net2).loading = false ∧
      (fetchMemecoinsDiscovery st now bc none net2).lastUpdated = st.lastUpdated) ∧
    ((fetchMemecoinsDiscovery st now bc (some profs) none).assets = st.assets ∧
      (fetchMemecoinsDiscovery st now bc (some profs) none).error
        = some "Dex Uplink Interrupted" ∧
      (fetchMemecoinsDiscovery st now bc (some profs) none).loading = false ∧
      (fetchMemecoinsDiscovery st now bc (some profs) none).lastUpdated = st.lastUpdated) := by
  refine ⟨⟨rfl, rfl, rfl, rfl⟩, ⟨rfl, rfl, rfl, rfl⟩, ⟨rfl, rfl, rfl, rfl⟩, ?_⟩
  simp only [fetchMemecoinsDiscovery, dexFail]
  rw [if_neg hne]
  exact ⟨rfl, rfl, rfl, rfl⟩

/-- emptyMarketState is the initial App market state. -/
def emptyMarketState : MarketState :=
  { assets := [], loading := true, error := none, lastUpdated := none }

/-- Witness for C10: a failing second-phase pair lookup after a
discovery call that returned one token address leaves the (empty)
asset list and update time unchanged. -/
theorem fetch_failure_keeps_assets_witness :
    (fetchMemecoinsDiscovery emptyMarketState 0 "all" (some ["0xAA"]) none).assets
      = emptyMarketState.assets ∧
    (fetchMemecoinsDiscovery emptyMarketState 0 "all" (some ["0xAA"]) none).error
      = some "Dex Uplink Interrupted" ∧
    (fetchMemecoinsDiscovery emptyMarketState 0 "all" (some ["0xAA"]) none).loading = false ∧
    (fetchMemecoinsDiscovery emptyMarketState 0 "all" (some ["0xAA"]) none).lastUpdated
      = emptyMarketState.lastUpdated :=
  (fetch_failure_keeps_assets emptyMarketState 0 "all" none ["0xAA"] (by decide)).2.2.2
